import Mathlib

/-!
Shallow embedding of the per-guild playback orchestrator of `bot.py`
(kinorox/sacudo).  A guild's mutable session data — the global dictionaries
`queues`, `current_song`, `preloaded_songs`, `playing_locks` restricted to one
guild, together with the voice-client flags — is modelled as a `GuildState`.
Queue entries are the literal strings the code stores (URLs or search text);
a resolved player (`YTDLSource`) is modelled as a `Track` carrying its `url`
and `title` fields.  The external resolver `YTDLSource.from_url` is an
arbitrary function `String → Option Track` (`none` = `YTDLError`), and the
availability of a working voice connection is a boolean parameter `connOk`.

Key normalisation: live code only ever writes `queues` and `current_song`
under string guild-ids (`fix_queue` moves any integer-keyed queue to the
string key; every assignment to `current_song` uses `guild_id_str`), so the
single fields below stand for the string-keyed entries.  The one place where
the integer/string distinction is observable — the voice-disconnect handler
at bot.py:2306, which reads the integer keys — is modelled separately by
`SessionDicts` / `on_voice_disconnect` with both slots explicit.
-/

/-- A resolved playable track (`YTDLSource`): its canonical `url` and `title`. -/
structure Track where
  url : String
  title : String
deriving DecidableEq

/-- One guild's session state: `queue` is `queues[guild_id_str]`, `current` is
`current_song[guild_id_str]`, `preloaded` is `preloaded_songs[guild_id]`,
`lock` is `playing_locks[guild_id]`; `hasVoice`, `isPlaying`, `isPaused`
model `ctx.voice_client`, `.is_playing()` and `.is_paused()`. -/
structure GuildState where
  queue : List String
  current : Option Track
  preloaded : Option Track
  lock : Bool
  hasVoice : Bool
  isPlaying : Bool
  isPaused : Bool
deriving DecidableEq

/-- The guard `current_song_url and url == current_song_url` used by
`fix_queue` (bot.py:1162) and `play_next` (bot.py:1569, 1681): Python string
truthiness means an empty current URL never matches. -/
def curMatches (cur : Option String) (url : String) : Bool :=
  match cur with
  | some c => !(c = "") && (url = c)
  | none => false

/-- The body of the `for i, url in enumerate(queues[guild_id_str])` loop of
`fix_queue` (bot.py:1159-1170): drop an entry equal to the current song's URL
unless it is the first item (`i > 0`), then drop entries already seen
(`unique_urls`), keeping the first occurrence. -/
def fix_queue_aux (cur : Option String) : Nat → List String → List String → List String
  | _, _, [] => []
  | i, seen, url :: rest =>
    if curMatches cur url && decide (0 < i) then
      fix_queue_aux cur (i + 1) seen rest
    else if url ∈ seen then
      fix_queue_aux cur (i + 1) seen rest
    else
      url :: fix_queue_aux cur (i + 1) (url :: seen) rest

/-- `fix_queue` (bot.py:1119-1184) as a pure function from the current song's
URL and the queue to the rebuilt queue. -/
def fix_queue (cur : Option String) (q : List String) : List String :=
  fix_queue_aux cur 0 [] q

/-- `needle.isPrefix hay` on character lists, written out structurally. -/
def listStartsWith : List Char → List Char → Bool
  | [], _ => true
  | _ :: _, [] => false
  | a :: as, b :: bs => a = b && listStartsWith as bs

/-- Substring test on character lists. -/
def containsSub (needle : List Char) : List Char → Bool
  | [] => listStartsWith needle []
  | c :: rest => listStartsWith needle (c :: rest) || containsSub needle rest

/-- The `'list=' in search` playlist test of `handle_play_request`
(bot.py:1207). -/
def isPlaylistQuery (s : String) : Bool :=
  containsSub "list=".data s.data

/-- The single-track branch of `handle_play_request` (bot.py:1211-1393).
The queue is first rebuilt by `fix_queue` (line 1213).  While the voice
client `is_playing()`, the literal `search` string is appended with no
duplicate check (line 1234).  Otherwise the request is resolved
(`YTDLSource.from_url`, line 1256) and played (line 1342, setting
`current_song`, line 1345); resolver failure (`YTDLError`, line 1374) or an
unavailable voice connection (line 1339) returns an error message leaving
`current_song` untouched and nothing appended.  The playlist branch
(`handle_playlist`, taken when `'list='` occurs in `search`) is outside the
modelled claims and is left as the identity; every theorem about this
function assumes `isPlaylistQuery search = false`. -/
def handle_play_request (resolve : String → Option Track) (connOk : Bool)
    (s : GuildState) (search : String) : GuildState :=
  if isPlaylistQuery search then s
  else
    let q := fix_queue (s.current.map Track.url) s.queue
    if s.isPlaying then
      { s with queue := q ++ [search] }
    else
      match resolve search with
      | some player =>
        if connOk then
          { s with queue := q, current := some player,
                   isPlaying := true, isPaused := false }
        else
          { s with queue := q }
      | none => { s with queue := q }

/-- `handle_stop_request` (bot.py:456-529): without a voice client, or with
nothing playing or paused, it returns an error and mutates nothing
(lines 462-468); otherwise it clears the queue (475-482), sets
`current_song` to `None` (488-496), discards the preloaded song (498-501)
and stops the voice client (504).  The `after` callback the stop fires is
modelled separately (`play_next`). -/
def handle_stop_request (s : GuildState) : GuildState :=
  if !s.hasVoice then s
  else if !s.isPlaying && !s.isPaused then s
  else
    { s with queue := [], current := none, preloaded := none,
             isPlaying := false, isPaused := false }

/-- The queue-consuming section of `play_next` (bot.py:1659-1795), entered
with `current_song` already cleared (line 1561) and the preload slot already
consumed; `curUrl` is the URL saved at line 1549 and `recur` stands for the
`asyncio.create_task(play_next(ctx))` re-entries, which run after the
`finally` block has released the lock.  A popped head equal to the current
URL is skipped (lines 1681-1684); a resolver failure (1740-1779) or a failed
voice connection (1691-1695) falls through to the next entry; on success the
resolved player starts playing (1717-1718). -/
def play_next_queue (resolve : String → Option Track) (connOk : Bool)
    (recur : GuildState → GuildState) (curUrl : Option String)
    (s : GuildState) : GuildState :=
  match s.queue with
  | [] => { s with current := none, lock := false }
  | nextUrl :: rest =>
    if curMatches curUrl nextUrl then
      recur { s with queue := rest, current := none, lock := false }
    else
      match resolve nextUrl with
      | some player =>
        if connOk then
          { s with queue := rest, current := some player,
                   isPlaying := true, isPaused := false, lock := false }
        else
          recur { s with queue := rest, current := none, lock := false }
      | none =>
        recur { s with queue := rest, current := none, lock := false }

/-- `play_next` (bot.py:1511-1847), fuelled: one unit of fuel per (re-)entry
into the function; `play_next` below supplies enough fuel for every chain of
`create_task(play_next(ctx))` re-entries to terminate, since each re-entry
happens only after the queue got shorter or the preload slot was consumed.
An invocation finding the playing lock set returns at once (1538-1541);
otherwise the lock is set (1544), the current URL saved (1549-1552), the
queue rebuilt by `fix_queue` (1557) and `current_song` cleared (1561).  A
preloaded song equal to the current URL is discarded (1569-1571) and the
queue section tried instead (or, with an empty queue, the session goes idle,
1576-1601); an unequal preloaded song is played (1618-1620), a failure while
starting it (1637-1652) discarding it and re-entering.  The `finally` block
(1835-1838) releases the lock on every exit, which the returned states
reflect with `lock := false`. -/
def play_next_go (resolve : String → Option Track) (connOk : Bool) :
    Nat → GuildState → GuildState
  | 0, s => s
  | fuel + 1, s =>
    if s.lock then s
    else
      let curUrl := s.current.map Track.url
      let q := fix_queue curUrl s.queue
      match s.preloaded with
      | some p =>
        if curMatches curUrl p.url then
          if q.isEmpty then
            { s with queue := q, current := none, preloaded := none,
                     lock := false }
          else
            play_next_queue resolve connOk (play_next_go resolve connOk fuel)
              curUrl { s with queue := q, current := none, preloaded := none }
        else
          if connOk then
            { s with queue := q, current := some p, preloaded := none,
                     isPlaying := true, isPaused := false, lock := false }
          else
            play_next_go resolve connOk fuel
              { s with queue := q, current := none, preloaded := none,
                       lock := false }
      | none =>
        play_next_queue resolve connOk (play_next_go resolve connOk fuel)
          curUrl { s with queue := q, current := none }

/-- `play_next` with fuel sufficient for every re-entry chain: each re-entry
strictly decreases the number of queue entries plus cached preloads, so
`length + 2` entries of fuel are never exhausted. -/
def play_next (resolve : String → Option Track) (connOk : Bool)
    (s : GuildState) : GuildState :=
  play_next_go resolve connOk (s.queue.length + 2) s

/-- `handle_skip_request` (bot.py:309-393): without a voice client, or with
nothing playing or paused, it returns an error and mutates nothing
(315-321); otherwise it runs `fix_queue` (339) and stops the voice client
(361), whose `after` callback re-enters `play_next` (the lambda installed at
bot.py:1342/1619/1717). -/
def handle_skip_request (resolve : String → Option Track) (connOk : Bool)
    (s : GuildState) : GuildState :=
  if !s.hasVoice then s
  else if !s.isPlaying && !s.isPaused then s
  else
    play_next resolve connOk
      { s with queue := fix_queue (s.current.map Track.url) s.queue,
               isPlaying := false, isPaused := false }

/-- `preload_next_song` (bot.py:1850-1907): with a song already preloaded it
returns at once (1857-1859); with an empty queue it does nothing (1862).
Otherwise it peeks the head without popping (1864); a head equal to the
currently playing song's URL is popped (1876-1879) and the following entry,
if any, becomes the preload candidate (1881-1885).  The candidate is
resolved (1890); a resolved player whose title equals the current song's is
discarded (1893-1896), otherwise it is cached (1898); resolver failure
leaves the state as it stands (1900-1907). -/
def preload_next_song (resolve : String → Option Track)
    (s : GuildState) : GuildState :=
  if s.preloaded.isSome then s
  else
    match s.queue with
    | [] => s
    | nextUrl :: rest =>
      if (match s.current with
          | some c => decide (c.url = nextUrl)
          | none => false) then
        match rest with
        | [] => { s with queue := rest }
        | nextUrl2 :: _ =>
          match resolve nextUrl2 with
          | some player =>
            if (match s.current with
                | some c => decide (c.title = player.title)
                | none => false) then
              { s with queue := rest }
            else
              { s with queue := rest, preloaded := some player }
          | none => { s with queue := rest }
      else
        match resolve nextUrl with
        | some player =>
          if (match s.current with
              | some c => decide (c.title = player.title)
              | none => false) then
            s
          else
            { s with preloaded := some player }
        | none => s

/-- The global dictionaries of bot.py restricted to one guild, with the
integer-keyed and string-keyed entries kept apart, as the voice-disconnect
handler observes them: `currentStr`/`currentInt` are
`current_song[str(gid)]`/`current_song[gid]`, `queueStr`/`queueInt` likewise
for `queues`; `preloadedInt`, `lockInt` and `lastChannelInt` are the always
integer-keyed `preloaded_songs[gid]`, `playing_locks[gid]` and
`last_voice_channel[gid]`. -/
structure SessionDicts where
  currentStr : Option Track
  currentInt : Option Track
  queueStr : Option (List String)
  queueInt : Option (List String)
  preloadedInt : Option Track
  lockInt : Bool
  lastChannelInt : Option Nat
deriving DecidableEq

/-- The bot-disconnected branch of the effective `on_voice_state_update`
(bot.py:2306-2350; the last of the several definitions in the file wins the
`@bot.event` registration).  It remembers the channel (2317), cleans up
`current_song[guild_id]` — the integer key — if present (2320-2323), clears
`preloaded_songs[guild_id]` (2325-2328), resets `playing_locks[guild_id]`
(2331-2333), and schedules `reconnect_and_resume` only when
`guild_id in queues` — integer-key membership — holds and
`queues[str(guild_id)]` is non-empty (2336); with the integer key present
but the string key absent that line would raise `KeyError`, modelled here as
not scheduling.  The returned boolean says whether reconnection was
scheduled. -/
def on_voice_disconnect (d : SessionDicts) (channel : Nat) :
    SessionDicts × Bool :=
  let d1 := { d with lastChannelInt := some channel }
  let d2 := match d1.currentInt with
    | some _ => { d1 with currentInt := none }
    | none => d1
  let d3 := match d2.preloadedInt with
    | some _ => { d2 with preloadedInt := none }
    | none => d2
  let d4 := { d3 with lockInt := false }
  let scheduled := d4.queueInt.isSome &&
    (match d4.queueStr with
     | some q => !q.isEmpty
     | none => false)
  (d4, scheduled)

lemma curMatches_some (c x : String) :
    curMatches (some c) x = (!(c = "") && (x = c)) := rfl

lemma curMatches_none (x : String) : curMatches none x = false := rfl

lemma fix_queue_nil (cur : Option String) : fix_queue cur [] = [] := rfl

lemma fix_queue_cons (cur : Option String) (h : String) (rest : List String) :
    fix_queue cur (h :: rest) = h :: fix_queue_aux cur 1 [h] rest := by
  simp [fix_queue, fix_queue_aux]

lemma fix_queue_aux_idx (cur : Option String) :
    ∀ (l seen : List String) (i j : Nat),
      fix_queue_aux cur (i + 1) seen l = fix_queue_aux cur (j + 1) seen l := by
  intro l
  induction l with
  | nil => intro seen i j; rfl
  | cons u rest ih =>
    intro seen i j
    simp only [fix_queue_aux, decide_eq_true (Nat.succ_pos i),
      decide_eq_true (Nat.succ_pos j), Bool.and_true]
    by_cases hm : curMatches cur u = true
    · simp only [hm, if_true]
      exact ih seen (i + 1) (j + 1)
    · simp only [Bool.not_eq_true] at hm
      simp only [hm]
      rw [if_neg Bool.false_ne_true, if_neg Bool.false_ne_true]
      by_cases hs : u ∈ seen
      · rw [if_pos hs, if_pos hs]
        exact ih seen (i + 1) (j + 1)
      · rw [if_neg hs, if_neg hs]
        exact congrArg (u :: ·) (ih (u :: seen) (i + 1) (j + 1))

lemma fix_queue_aux_sublist (cur : Option String) :
    ∀ (l : List String) (i : Nat) (seen : List String),
      (fix_queue_aux cur i seen l).Sublist l := by
  intro l
  induction l with
  | nil => intro i seen; simp [fix_queue_aux]
  | cons u rest ih =>
    intro i seen
    simp only [fix_queue_aux]
    by_cases h1 : (curMatches cur u && decide (0 < i)) = true
    · simp only [if_pos h1]
      exact (ih (i + 1) seen).cons u
    · simp only [if_neg h1]
      by_cases h2 : u ∈ seen
      · simp only [if_pos h2]
        exact (ih (i + 1) seen).cons u
      · simp only [if_neg h2]
        exact (ih (i + 1) (u :: seen)).cons₂ u

lemma fix_queue_sublist (cur : Option String) (q : List String) :
    (fix_queue cur q).Sublist q :=
  fix_queue_aux_sublist cur q 0 []

lemma mem_of_mem_fix_queue {cur : Option String} {q : List String} {x : String}
    (hx : x ∈ fix_queue cur q) : x ∈ q :=
  (fix_queue_sublist cur q).subset hx

lemma fix_queue_aux_not_mem_of_matches (cur : Option String) {x : String}
    (hx : curMatches cur x = true) :
    ∀ (l : List String) (i : Nat) (seen : List String),
      x ∉ fix_queue_aux cur (i + 1) seen l := by
  intro l
  induction l with
  | nil => intro i seen; simp [fix_queue_aux]
  | cons u rest ih =>
    intro i seen
    simp only [fix_queue_aux, decide_eq_true (Nat.succ_pos i), Bool.and_true]
    by_cases hm : curMatches cur u = true
    · simp only [if_pos hm]
      exact ih (i + 1) seen
    · simp only [Bool.not_eq_true] at hm
      simp only [hm]
      have hne : x ≠ u := fun he => by rw [he] at hx; rw [hx] at hm; cases hm
      rw [if_neg Bool.false_ne_true]
      by_cases hs : u ∈ seen
      · rw [if_pos hs]
        exact ih (i + 1) seen
      · rw [if_neg hs]
        intro hmem
        rcases List.mem_cons.mp hmem with he | htl
        · exact hne he
        · exact ih (i + 1) (u :: seen) htl

lemma fix_queue_aux_disjoint_nodup (cur : Option String) :
    ∀ (l : List String) (i : Nat) (seen : List String),
      (∀ x ∈ fix_queue_aux cur i seen l, x ∉ seen) ∧
        (fix_queue_aux cur i seen l).Nodup := by
  intro l
  induction l with
  | nil => intro i seen; simp [fix_queue_aux]
  | cons u rest ih =>
    intro i seen
    simp only [fix_queue_aux]
    by_cases h1 : (curMatches cur u && decide (0 < i)) = true
    · simp only [if_pos h1]
      exact ih (i + 1) seen
    · simp only [if_neg h1]
      by_cases h2 : u ∈ seen
      · simp only [if_pos h2]
        exact ih (i + 1) seen
      · simp only [if_neg h2]
        obtain ⟨ihd, ihn⟩ := ih (i + 1) (u :: seen)
        constructor
        · intro x hx
          rcases List.mem_cons.mp hx with he | htl
          · exact he ▸ h2
          · intro hxs
            exact ihd x htl (List.mem_cons_of_mem u hxs)
        · refine List.nodup_cons.mpr ⟨?_, ihn⟩
          intro hu
          exact ihd u hu (List.mem_cons_self u seen)

lemma fix_queue_aux_fixpoint (cur : Option String) :
    ∀ (l : List String) (i : Nat) (seen : List String),
      (∀ x ∈ l, curMatches cur x = false) → l.Nodup →
      (∀ x ∈ l, x ∉ seen) →
      fix_queue_aux cur (i + 1) seen l = l := by
  intro l
  induction l with
  | nil => intro i seen _ _ _; rfl
  | cons u rest ih =>
    intro i seen hnc hnd hns
    have hu : curMatches cur u = false := hnc u (List.mem_cons_self u rest)
    have hus : u ∉ seen := hns u (List.mem_cons_self u rest)
    simp only [fix_queue_aux, hu, Bool.false_and, Bool.false_eq_true, if_false,
      if_neg hus]
    refine congrArg (u :: ·) (ih (i + 1) (u :: seen) ?_ ?_ ?_)
    · exact fun x hx => hnc x (List.mem_cons_of_mem u hx)
    · exact (List.nodup_cons.mp hnd).2
    · intro x hx hmem
      rcases List.mem_cons.mp hmem with he | hxs
      · exact (List.nodup_cons.mp hnd).1 (he ▸ hx)
      · exact hns x (List.mem_cons_of_mem u hx) hxs

lemma fix_queue_aux_all_matches (cur : Option String) :
    ∀ (l : List String) (i : Nat) (seen : List String),
      (∀ x ∈ l, curMatches cur x = true) →
      fix_queue_aux cur (i + 1) seen l = [] := by
  intro l
  induction l with
  | nil => intro i seen _; rfl
  | cons u rest ih =>
    intro i seen hall
    have hu : curMatches cur u = true := hall u (List.mem_cons_self u rest)
    simp only [fix_queue_aux, hu, decide_eq_true (Nat.succ_pos i),
      Bool.and_self, if_true]
    exact ih (i + 1) seen fun x hx => hall x (List.mem_cons_of_mem u hx)

lemma fix_queue_nodup (cur : Option String) (q : List String) :
    (fix_queue cur q).Nodup := by
  cases q with
  | nil => simp [fix_queue_nil]
  | cons h rest =>
    rw [fix_queue_cons]
    obtain ⟨hd, hn⟩ := fix_queue_aux_disjoint_nodup cur rest 1 [h]
    refine List.nodup_cons.mpr ⟨?_, hn⟩
    intro hh
    exact hd h hh (List.mem_singleton.mpr rfl)

lemma fix_queue_idem (cur : Option String) (q : List String) :
    fix_queue cur (fix_queue cur q) = fix_queue cur q := by
  cases q with
  | nil => rfl
  | cons h rest =>
    rw [fix_queue_cons, fix_queue_cons]
    refine congrArg (h :: ·) ?_
    obtain ⟨hd, hn⟩ := fix_queue_aux_disjoint_nodup cur rest 1 [h]
    refine fix_queue_aux_fixpoint cur _ 0 [h] ?_ hn ?_
    · intro x hx
      by_contra hc
      simp only [Bool.not_eq_false] at hc
      exact fix_queue_aux_not_mem_of_matches cur hc rest 0 [h] hx
    · exact hd

lemma fix_queue_head (cur : Option String) (q : List String) :
    (fix_queue cur q).head? = q.head? := by
  cases q with
  | nil => rfl
  | cons h rest => rw [fix_queue_cons]; rfl

lemma fix_queue_tail_not_matches (cur : Option String) {x : String}
    (hx : curMatches cur x = true) (q : List String) :
    x ∉ (fix_queue cur q).drop 1 := by
  cases q with
  | nil => simp [fix_queue_nil]
  | cons h rest =>
    rw [fix_queue_cons]
    exact fix_queue_aux_not_mem_of_matches cur hx rest 0 [h]

lemma fix_queue_aux_mem_or_seen (cur : Option String) {x : String}
    (hx : curMatches cur x = false) :
    ∀ (l : List String) (i : Nat) (seen : List String),
      x ∈ l → x ∈ seen ∨ x ∈ fix_queue_aux cur i seen l := by
  intro l
  induction l with
  | nil => intro i seen hmem; cases hmem
  | cons u rest ih =>
    intro i seen hmem
    simp only [fix_queue_aux]
    by_cases h1 : (curMatches cur u && decide (0 < i)) = true
    · simp only [if_pos h1]
      rcases List.mem_cons.mp hmem with he | htl
      · exfalso
        have := (Bool.and_eq_true _ _).mp h1
        rw [he] at hx
        rw [hx] at this
        exact Bool.false_ne_true this.1
      · exact ih (i + 1) seen htl
    · simp only [if_neg h1]
      by_cases h2 : u ∈ seen
      · simp only [if_pos h2]
        rcases List.mem_cons.mp hmem with he | htl
        · exact Or.inl (he ▸ h2)
        · exact ih (i + 1) seen htl
      · simp only [if_neg h2]
        rcases List.mem_cons.mp hmem with he | htl
        · exact Or.inr (he ▸ List.mem_cons_self u _)
        · rcases ih (i + 1) (u :: seen) htl with hs | hr
          · rcases List.mem_cons.mp hs with he' | hs'
            · exact Or.inr (he' ▸ List.mem_cons_self u _)
            · exact Or.inl hs'
          · exact Or.inr (List.mem_cons_of_mem u hr)

lemma fix_queue_mem_of_not_matches (cur : Option String) {x : String}
    {q : List String} (hmem : x ∈ q) (hx : curMatches cur x = false) :
    x ∈ fix_queue cur q := by
  cases q with
  | nil => cases hmem
  | cons h rest =>
    rw [fix_queue_cons]
    rcases List.mem_cons.mp hmem with he | htl
    · exact he ▸ List.mem_cons_self h _
    · rcases fix_queue_aux_mem_or_seen cur hx rest 1 [h] htl with hs | hr
      · exact (List.mem_singleton.mp hs) ▸ List.mem_cons_self h _
      · exact List.mem_cons_of_mem h hr

lemma fix_queue_all_current {c : String} (hc : c ≠ "") {q : List String}
    (hall : ∀ x ∈ q, x = c) : fix_queue (some c) q = q.take 1 := by
  cases q with
  | nil => rfl
  | cons h rest =>
    rw [fix_queue_cons]
    have : fix_queue_aux (some c) 1 [h] rest = [] := by
      refine fix_queue_aux_all_matches (some c) rest 0 [h] ?_
      intro x hx
      have hxc : x = c := hall x (List.mem_cons_of_mem h hx)
      simp [curMatches_some, hxc, hc]
    rw [this]
    rfl

lemma play_next_queue_lock (resolve : String → Option Track) (connOk : Bool)
    (recur : GuildState → GuildState) (curUrl : Option String)
    (hrec : ∀ s', s'.lock = false → (recur s').lock = false)
    (s : GuildState) :
    (play_next_queue resolve connOk recur curUrl s).lock = false := by
  rw [play_next_queue]
  cases hq : s.queue with
  | nil => rfl
  | cons u rest =>
    by_cases hcm : curMatches curUrl u = true
    · simp only [hcm, if_true]
      exact hrec _ rfl
    · simp only [Bool.not_eq_true] at hcm
      simp only [hcm]
      rw [if_neg Bool.false_ne_true]
      cases hr : resolve u with
      | some player =>
        cases connOk with
        | true => rfl
        | false =>
          simp only [Bool.false_eq_true, if_false]
          exact hrec _ rfl
      | none => exact hrec _ rfl

lemma play_next_go_lock (resolve : String → Option Track) (connOk : Bool) :
    ∀ (fuel : Nat) (s : GuildState), s.lock = false →
      (play_next_go resolve connOk fuel s).lock = false := by
  intro fuel
  induction fuel with
  | zero => intro s hs; exact hs
  | succ fuel ih =>
    intro s hs
    rw [play_next_go]
    simp only [hs, Bool.false_eq_true, if_false]
    cases hpre : s.preloaded with
    | some p =>
      by_cases hcm : curMatches (s.current.map Track.url) p.url = true
      · simp only [hcm, if_true]
        by_cases hemp :
            (fix_queue (s.current.map Track.url) s.queue).isEmpty = true
        · simp only [hemp, if_true]
        · simp only [Bool.not_eq_true] at hemp
          simp only [hemp]
          rw [if_neg Bool.false_ne_true]
          exact play_next_queue_lock resolve connOk _ _ (fun s' h => ih s' h) _
      · simp only [Bool.not_eq_true] at hcm
        simp only [hcm]
        rw [if_neg Bool.false_ne_true]
        cases connOk with
        | true => rfl
        | false =>
          simp only [Bool.false_eq_true, if_false]
          exact ih _ rfl
    | none =>
      exact play_next_queue_lock resolve connOk _ _ (fun s' h => ih s' h) _

lemma play_next_locked (resolve : String → Option Track) (connOk : Bool)
    (s : GuildState) (h : s.lock = true) : play_next resolve connOk s = s := by
  rw [play_next, play_next_go]
  simp [h]

/-- C3: a `play_next` invocation that finds the guild's playing lock set
(bot.py:1538-1541) returns immediately without touching the queue, the
current song, the preload, or any other session state: the whole state is
returned unchanged.  In the guard-serialised execution this is what keeps at
most one transition active per guild. -/
theorem c3_guard_rejects_second_transition (resolve : String → Option Track)
    (connOk : Bool) (s : GuildState) (h : s.lock = true) :
    play_next resolve connOk s = s :=
  play_next_locked resolve connOk s h

/-- Witness for C3 at a concrete locked state. -/
theorem c3_guard_rejects_second_transition_witness :
    play_next (fun _ => none) true
      { queue := ["x"], current := some ⟨"y", "Y"⟩,
        preloaded := some ⟨"z", "Z"⟩, lock := true, hasVoice := true,
        isPlaying := true, isPaused := false } =
      { queue := ["x"], current := some ⟨"y", "Y"⟩,
        preloaded := some ⟨"z", "Z"⟩, lock := true, hasVoice := true,
        isPlaying := true, isPaused := false } :=
  c3_guard_rejects_second_transition (fun _ => none) true
    { queue := ["x"], current := some ⟨"y", "Y"⟩,
      preloaded := some ⟨"z", "Z"⟩, lock := true, hasVoice := true,
      isPlaying := true, isPaused := false } rfl

/-- C7: `play_next` leaves the lock exactly as it found it — an invocation
that acquired the lock (bot.py:1544) releases it on every exit path,
normal, empty-queue, resolver-failure, connection-failure and
preload-failure alike, via the `finally` block at bot.py:1835-1838; an
invocation rejected by the lock check never held it.  This holds for every
resolver behaviour and every connection outcome. -/
theorem c7_lock_released_on_every_exit (resolve : String → Option Track)
    (connOk : Bool) (s : GuildState) :
    (play_next resolve connOk s).lock = s.lock := by
  cases hl : s.lock with
  | true =>
    rw [play_next_locked resolve connOk s hl]
    exact hl
  | false =>
    exact play_next_go_lock resolve connOk _ s hl

/-- C1 counterexample: a queue consisting entirely of entries equal to the
current identity does NOT normalize to the empty queue — `fix_queue` keeps
the first item even when it equals the current song (the `i > 0` guard at
bot.py:1160-1164), so the singleton all-duplicate queue is returned intact. -/
theorem c1_normalize_counterexample :
    fix_queue (some "a") ["a"] = ["a"] ∧ fix_queue (some "a") ["a"] ≠ [] := by
  exact ⟨rfl, by decide⟩

/-- C1 as the code has it: `fix_queue` preserves relative order (the result
is a sublist of the input), drops all but the first occurrence of any
repeated entry (the result has no duplicates), and drops entries equal to
the current identity only at positions after the first — the head of the
queue is always retained, even when it equals the current identity, so a
queue whose entries all equal the current identity normalizes to its first
entry alone, not to the empty queue.  Every entry different from the current
identity survives, the head is unchanged, and the operation is idempotent.
The current URL is assumed non-empty because Python's string-truthiness test
at bot.py:1162 disables the current-identity rule for an empty URL. -/
theorem c1_normalize_amended (c : String) (hc : c ≠ "") (q : List String) :
    (fix_queue (some c) q).Sublist q ∧
    (fix_queue (some c) q).Nodup ∧
    (∀ x ∈ (fix_queue (some c) q).drop 1, x ≠ c) ∧
    (fix_queue (some c) q).head? = q.head? ∧
    (∀ x ∈ q, x ≠ c → x ∈ fix_queue (some c) q) ∧
    ((∀ x ∈ q, x = c) → fix_queue (some c) q = q.take 1) ∧
    fix_queue (some c) (fix_queue (some c) q) = fix_queue (some c) q := by
  refine ⟨fix_queue_sublist _ q, fix_queue_nodup _ q, ?_, fix_queue_head _ q,
    ?_, fix_queue_all_current hc, fix_queue_idem _ q⟩
  · intro x hx he
    refine fix_queue_tail_not_matches (some c) ?_ q hx
    simp [curMatches_some, he, hc]
  · intro x hx hne
    refine fix_queue_mem_of_not_matches (some c) hx ?_
    simp [curMatches_some, hne]

/-- Witness for C1 at a concrete current identity and queue. -/
theorem c1_normalize_witness :
    fix_queue (some "a") ["a", "a"] = ["a"] := by
  have h := (c1_normalize_amended "a" (by decide) ["a", "a"]).2.2.2.2.2.1
    (by decide)
  simpa using h

/-- A concrete resolver used by counterexamples and witnesses: it resolves
the URLs "a" and "b" to tracks whose canonical URL is the query itself and
fails on everything else. -/
def cexResolve : String → Option Track := fun u =>
  if u = "a" then some ⟨"a", "A"⟩
  else if u = "b" then some ⟨"b", "B"⟩
  else none

lemma cexResolve_url (u : String) (t : Track) (h : cexResolve u = some t) :
    t.url = u := by
  unfold cexResolve at h
  by_cases ha : u = "a"
  · rw [if_pos ha] at h
    cases h
    rw [ha]
  · rw [if_neg ha] at h
    by_cases hb : u = "b"
    · rw [if_pos hb] at h
      cases h
      rw [hb]
    · rw [if_neg hb] at h
      cases h

/-- C2 counterexample: with track B playing and the queue already holding
the literal request "a", a new `play` request for the same literal "a" is
appended anyway (bot.py:1234) — no duplicate rejection happens, and the
queue ends with two equal entries, where the claim demands rejection with
the queue unchanged. -/
theorem c2_enqueue_counterexample :
    (handle_play_request cexResolve true
      { queue := ["a"], current := some ⟨"b", "B"⟩, preloaded := none,
        lock := false, hasVoice := true, isPlaying := true,
        isPaused := false } "a").queue = ["a", "a"] := rfl

/-- C2 as the code has it: while a track is playing, `handle_play_request`
always appends the literal request to the queue, after `fix_queue` has
deduplicated the existing entries among themselves; neither the literal
text nor any resolved identity of the request is compared against the queue
or the current song, so no request is ever rejected as a duplicate. -/
theorem c2_enqueue_amended (resolve : String → Option Track) (connOk : Bool)
    (s : GuildState) (search : String)
    (hpl : isPlaylistQuery search = false) (hp : s.isPlaying = true) :
    (handle_play_request resolve connOk s search).queue =
      fix_queue (s.current.map Track.url) s.queue ++ [search] ∧
    (handle_play_request resolve connOk s search).current = s.current := by
  rw [handle_play_request]
  simp [hpl, hp]

/-- Witness for C2 at a concrete playing state and request. -/
theorem c2_enqueue_witness :
    (handle_play_request cexResolve true
      { queue := ["b"], current := some ⟨"b", "B"⟩, preloaded := none,
        lock := false, hasVoice := true, isPlaying := true,
        isPaused := false } "b").queue = ["b", "b"] ∧
    (handle_play_request cexResolve true
      { queue := ["b"], current := some ⟨"b", "B"⟩, preloaded := none,
        lock := false, hasVoice := true, isPlaying := true,
        isPaused := false } "b").current = some ⟨"b", "B"⟩ := by
  have h := c2_enqueue_amended cexResolve true
    { queue := ["b"], current := some ⟨"b", "B"⟩, preloaded := none,
      lock := false, hasVoice := true, isPlaying := true,
      isPaused := false } "b" (by decide) rfl
  exact ⟨by rw [h.1]; rfl, by rw [h.2]⟩

/-- C4: while a track is playing, an enqueue request never starts playback —
the current song and the playing flag are untouched and the request is
merely appended (bot.py:1215-1247); from the non-playing (idle) state, a
request whose resolution succeeds and for which a voice connection is
available always starts playback of the resolved track (bot.py:1342-1345)
and is never appended to the queue — the queue keeps exactly the
`fix_queue`-rebuilt entries. -/
theorem c4_enqueue_mode (resolve : String → Option Track) (connOk : Bool)
    (s : GuildState) (search : String)
    (hpl : isPlaylistQuery search = false) :
    (s.isPlaying = true →
      (handle_play_request resolve connOk s search).current = s.current ∧
      (handle_play_request resolve connOk s search).isPlaying = true ∧
      (handle_play_request resolve connOk s search).queue =
        fix_queue (s.current.map Track.url) s.queue ++ [search]) ∧
    (s.isPlaying = false → ∀ tr, resolve search = some tr → connOk = true →
      (handle_play_request resolve connOk s search).current = some tr ∧
      (handle_play_request resolve connOk s search).isPlaying = true ∧
      (handle_play_request resolve connOk s search).queue =
        fix_queue (s.current.map Track.url) s.queue) := by
  constructor
  · intro hp
    rw [handle_play_request]
    simp [hpl, hp]
  · intro hp tr hres hconn
    rw [handle_play_request]
    simp [hpl, hp, hres, hconn]

/-- Witness for C4 at a concrete idle state whose request resolves. -/
theorem c4_enqueue_mode_witness :
    (handle_play_request cexResolve true
      { queue := [], current := none, preloaded := none, lock := false,
        hasVoice := true, isPlaying := false, isPaused := false }
      "a").current = some ⟨"a", "A"⟩ ∧
    (handle_play_request cexResolve true
      { queue := [], current := none, preloaded := none, lock := false,
        hasVoice := true, isPlaying := false, isPaused := false }
      "a").queue = [] := by
  have h := (c4_enqueue_mode cexResolve true
    { queue := [], current := none, preloaded := none, lock := false,
      hasVoice := true, isPlaying := false, isPaused := false }
    "a" (by decide)).2 rfl ⟨"a", "A"⟩ rfl rfl
  exact ⟨h.1, by rw [h.2.2]; rfl⟩

/-- C5 counterexample: a stop request arriving while nothing is playing or
paused — for instance after a playback session already ended, with entries
still queued — returns the error of bot.py:466-468 and clears nothing: the
queue keeps its entry, where the claim demands that stop from every state
empties the queue. -/
theorem c5_stop_counterexample :
    handle_stop_request
      { queue := ["a"], current := none, preloaded := none, lock := false,
        hasVoice := true, isPlaying := false, isPaused := false } =
      { queue := ["a"], current := none, preloaded := none, lock := false,
        hasVoice := true, isPlaying := false, isPaused := false } := rfl

/-- C5 as the code has it: when a voice client exists and something is
playing or paused, a stop request clears the queue, discards the current
song and the preloaded track, and the `play_next` run fired by the voice
stop's completion callback finds everything empty and settles the session
idle (queue empty, current song none, preload none).  In any other state the
request is rejected with an error message and mutates nothing. -/
theorem c5_stop_amended (resolve : String → Option Track) (connOk : Bool)
    (s : GuildState) (hv : s.hasVoice = true)
    (hp : s.isPlaying = true ∨ s.isPaused = true) :
    (play_next resolve connOk (handle_stop_request s)).queue = [] ∧
    (play_next resolve connOk (handle_stop_request s)).current = none ∧
    (play_next resolve connOk (handle_stop_request s)).preloaded = none := by
  have hs : handle_stop_request s =
      { s with queue := [], current := none, preloaded := none,
               isPlaying := false, isPaused := false } := by
    rw [handle_stop_request]
    rcases hp with hp | hp <;> simp [hv, hp]
  rw [hs]
  cases hl : s.lock with
  | true =>
    rw [play_next_locked resolve connOk _ rfl]
    exact ⟨rfl, rfl, rfl⟩
  | false =>
    rw [play_next, play_next_go]
    simp [hl, fix_queue_nil, play_next_queue]

/-- Witness for C5 at a concrete playing state with a non-empty queue and a
cached preload. -/
theorem c5_stop_amended_witness :
    (play_next cexResolve true (handle_stop_request
      { queue := ["a", "b"], current := some ⟨"a", "A"⟩,
        preloaded := some ⟨"b", "B"⟩, lock := false, hasVoice := true,
        isPlaying := true, isPaused := false })).queue = [] ∧
    (play_next cexResolve true (handle_stop_request
      { queue := ["a", "b"], current := some ⟨"a", "A"⟩,
        preloaded := some ⟨"b", "B"⟩, lock := false, hasVoice := true,
        isPlaying := true, isPaused := false })).current = none ∧
    (play_next cexResolve true (handle_stop_request
      { queue := ["a", "b"], current := some ⟨"a", "A"⟩,
        preloaded := some ⟨"b", "B"⟩, lock := false, hasVoice := true,
        isPlaying := true, isPaused := false })).preloaded = none :=
  c5_stop_amended cexResolve true
    { queue := ["a", "b"], current := some ⟨"a", "A"⟩,
      preloaded := some ⟨"b", "B"⟩, lock := false, hasVoice := true,
      isPlaying := true, isPaused := false } rfl (Or.inl rfl)

/-- C6 counterexample: guild playing track "a" with post-`fix_queue` queue
`["a"]` (length N = 1; `fix_queue` keeps the head even though it equals the
current song).  A skip does not end Playing the former head with N−1 queued:
`play_next` pops the head, finds it equal to the current URL
(bot.py:1681-1684), skips it, re-enters on the now-empty queue and settles
idle — the resulting current song is none and nothing is playing, although
the resolver resolves "a" perfectly well. -/
theorem c6_skip_counterexample :
    (handle_skip_request cexResolve true
      { queue := ["a"], current := some ⟨"a", "A"⟩, preloaded := none,
        lock := false, hasVoice := true, isPlaying := true,
        isPaused := false }).current = none ∧
    (handle_skip_request cexResolve true
      { queue := ["a"], current := some ⟨"a", "A"⟩, preloaded := none,
        lock := false, hasVoice := true, isPlaying := true,
        isPaused := false }).isPlaying = false := ⟨rfl, rfl⟩

/-- C6 as the code has it: a skip from a playing state with no cached
preload, whose post-`fix_queue` queue has head `h` and tail `t`, yields
Playing with the resolved former head as the new current song and the
remaining queue `t` (length N−1) — provided the head differs from the
current song's URL (otherwise `play_next` also consumes the entry after it)
and the head resolves successfully with a voice connection available. -/
theorem c6_skip_amended (resolve : String → Option Track) (s : GuildState)
    (c tr : Track) (h : String) (t : List String)
    (hv : s.hasVoice = true) (hp : s.isPlaying = true) (hl : s.lock = false)
    (hpre : s.preloaded = none) (hcur : s.current = some c)
    (hq : fix_queue (some c.url) s.queue = h :: t) (hne : h ≠ c.url)
    (hres : resolve h = some tr) :
    (handle_skip_request resolve true s).current = some tr ∧
    (handle_skip_request resolve true s).queue = t ∧
    (handle_skip_request resolve true s).isPlaying = true := by
  have hmap : s.current.map Track.url = some c.url := by rw [hcur]; rfl
  have hq2 : fix_queue (some c.url) (h :: t) = h :: t := by
    conv_lhs => rw [← hq]
    rw [fix_queue_idem, hq]
  have hcm : curMatches (some c.url) h = false := by
    simp [curMatches_some, hne]
  rw [handle_skip_request, hv, hp]
  rw [Bool.not_true, Bool.false_and]
  rw [if_neg Bool.false_ne_true, if_neg Bool.false_ne_true]
  rw [hmap, hq]
  rw [play_next, play_next_go]
  simp [hl, hcur, hpre, hq2, hcm, hres, play_next_queue]

/-- Witness for C6 at a concrete playing state whose post-dedup head "b"
differs from the current song "a". -/
theorem c6_skip_amended_witness :
    (handle_skip_request cexResolve true
      { queue := ["b"], current := some ⟨"a", "A"⟩, preloaded := none,
        lock := false, hasVoice := true, isPlaying := true,
        isPaused := false }).current = some ⟨"b", "B"⟩ ∧
    (handle_skip_request cexResolve true
      { queue := ["b"], current := some ⟨"a", "A"⟩, preloaded := none,
        lock := false, hasVoice := true, isPlaying := true,
        isPaused := false }).queue = [] ∧
    (handle_skip_request cexResolve true
      { queue := ["b"], current := some ⟨"a", "A"⟩, preloaded := none,
        lock := false, hasVoice := true, isPlaying := true,
        isPaused := false }).isPlaying = true :=
  c6_skip_amended cexResolve
    { queue := ["b"], current := some ⟨"a", "A"⟩, preloaded := none,
      lock := false, hasVoice := true, isPlaying := true, isPaused := false }
    ⟨"a", "A"⟩ ⟨"b", "B"⟩ "b" [] rfl rfl rfl rfl rfl (by decide)
    (by decide) rfl

lemma play_next_queue_preload (resolve : String → Option Track)
    (connOk : Bool) (recur : GuildState → GuildState) (curUrl : Option String)
    (hrec : ∀ s', s'.preloaded = none → (recur s').preloaded = none)
    (s : GuildState) (hp : s.preloaded = none) :
    (play_next_queue resolve connOk recur curUrl s).preloaded = none := by
  rw [play_next_queue]
  cases hq : s.queue with
  | nil => exact hp
  | cons u rest =>
    by_cases hcm : curMatches curUrl u = true
    · simp only [hcm, if_true]
      exact hrec _ hp
    · simp only [Bool.not_eq_true] at hcm
      simp only [hcm]
      rw [if_neg Bool.false_ne_true]
      cases hr : resolve u with
      | some player =>
        cases connOk with
        | true => exact hp
        | false =>
          simp only [Bool.false_eq_true, if_false]
          exact hrec _ hp
      | none => exact hrec _ hp

lemma play_next_go_preload_none (resolve : String → Option Track)
    (connOk : Bool) :
    ∀ (fuel : Nat) (s : GuildState), s.preloaded = none →
      (play_next_go resolve connOk fuel s).preloaded = none := by
  intro fuel
  induction fuel with
  | zero => intro s hp; exact hp
  | succ fuel ih =>
    intro s hp
    rw [play_next_go]
    by_cases hl : s.lock = true
    · simp only [hl, if_true]
      exact hp
    · simp only [Bool.not_eq_true] at hl
      simp only [hl]
      rw [if_neg Bool.false_ne_true, hp]
      exact play_next_queue_preload resolve connOk _ _
        (fun s' h => ih s' h) _ rfl

lemma play_next_queue_avoid (resolve : String → Option Track) (connOk : Bool)
    (recur : GuildState → GuildState) (curUrl : Option String) (v : String)
    (hres : ∀ u t, resolve u = some t → t.url = u)
    (hrec : ∀ s', s'.current = none → s'.preloaded = none →
        (∀ u ∈ s'.queue, u ≠ v) →
        (recur s').preloaded = none ∧
          ∀ tr, (recur s').current = some tr → tr.url ≠ v)
    (s : GuildState) (_hc : s.current = none) (hp : s.preloaded = none)
    (hhead : ∀ u rest, s.queue = u :: rest →
        curMatches curUrl u = false → u ≠ v)
    (htail : ∀ u ∈ s.queue.drop 1, u ≠ v) :
    (play_next_queue resolve connOk recur curUrl s).preloaded = none ∧
      ∀ tr, (play_next_queue resolve connOk recur curUrl s).current = some tr →
        tr.url ≠ v := by
  rw [play_next_queue]
  cases hq : s.queue with
  | nil =>
    refine ⟨hp, ?_⟩
    intro tr htr
    exact absurd htr (by simp)
  | cons u rest =>
    rw [hq] at htail
    simp only [List.drop_succ_cons, List.drop_zero] at htail
    by_cases hcm : curMatches curUrl u = true
    · simp only [hcm, if_true]
      exact hrec _ rfl hp htail
    · simp only [Bool.not_eq_true] at hcm
      simp only [hcm]
      rw [if_neg Bool.false_ne_true]
      have hune : u ≠ v := hhead u rest hq hcm
      cases hr : resolve u with
      | some player =>
        cases connOk with
        | true =>
          refine ⟨hp, ?_⟩
          intro tr htr
          have hpl : some player = some tr := htr
          have : player = tr := by
            injection hpl
          rw [← this, hres u player hr]
          exact hune
        | false =>
          simp only [Bool.false_eq_true, if_false]
          exact hrec _ rfl hp htail
      | none => exact hrec _ rfl hp htail

lemma play_next_go_avoid (resolve : String → Option Track) (connOk : Bool)
    (v : String) (hres : ∀ u t, resolve u = some t → t.url = u) :
    ∀ (fuel : Nat) (s : GuildState), s.current = none → s.preloaded = none →
      (∀ u ∈ s.queue, u ≠ v) →
      (play_next_go resolve connOk fuel s).preloaded = none ∧
        ∀ tr, (play_next_go resolve connOk fuel s).current = some tr →
          tr.url ≠ v := by
  intro fuel
  induction fuel with
  | zero =>
    intro s hc hp hq
    refine ⟨hp, ?_⟩
    intro tr htr
    rw [play_next_go] at htr
    rw [hc] at htr
    cases htr
  | succ fuel ih =>
    intro s hc hp hq
    rw [play_next_go]
    by_cases hl : s.lock = true
    · simp only [hl, if_true]
      refine ⟨hp, ?_⟩
      intro tr htr
      rw [hc] at htr
      cases htr
    · simp only [Bool.not_eq_true] at hl
      simp only [hl]
      rw [if_neg Bool.false_ne_true, hp, hc]
      simp only [Option.map_none']
      refine play_next_queue_avoid resolve connOk _ none v hres
        (fun s' h1 h2 h3 => ih s' h1 h2 h3) _ rfl rfl ?_ ?_
      · intro u rest hqe _hcm
        have hqe' : fix_queue none s.queue = u :: rest := hqe
        refine hq u ?_
        refine @mem_of_mem_fix_queue none s.queue u ?_
        rw [hqe']
        exact List.mem_cons_self u rest
      · intro u hu
        have hu' : u ∈ (fix_queue none s.queue).drop 1 := hu
        refine hq u ?_
        exact mem_of_mem_fix_queue ((List.drop_sublist 1 _).subset hu')

/-- C8: at most one preloaded track exists per guild — the cache is a single
slot, and `preload_next_song` returns untouched when the slot is full
(bot.py:1857-1859) — and a preloaded track whose URL matches the live
current song is discarded by `play_next` (bot.py:1569-1571) and never
becomes the playing track: whatever `play_next` ends up playing comes from
resolving a queue entry different from that URL.  A stop clears the slot
outright (bot.py:498-501), so a preload matching a stop-cleared track is
likewise discarded, never played.  The resolver is assumed to return tracks
whose canonical URL is the query, and the matching URL non-empty (Python
string truthiness disables the comparison at bot.py:1569 for ""). -/
theorem c8_preload_invariants (resolve : String → Option Track)
    (connOk : Bool) (s : GuildState) (p c : Track)
    (hres : ∀ u t, resolve u = some t → t.url = u) :
    (s.preloaded.isSome = true → preload_next_song resolve s = s) ∧
    (s.hasVoice = true → (s.isPlaying = true ∨ s.isPaused = true) →
      (handle_stop_request s).preloaded = none) ∧
    (s.lock = false → s.preloaded = some p → s.current = some c →
      p.url = c.url → c.url ≠ "" →
      (play_next resolve connOk s).preloaded = none ∧
        ∀ tr, (play_next resolve connOk s).current = some tr →
          tr.url ≠ p.url) := by
  refine ⟨?_, ?_, ?_⟩
  · intro hp
    rw [preload_next_song]
    simp [hp]
  · intro hv hp
    rw [handle_stop_request]
    rcases hp with hp | hp <;> simp [hv, hp]
  · intro hl hpre hcur hpu hcne
    have hcm : curMatches (some c.url) p.url = true := by
      simp [curMatches_some, hpu, hcne]
    rw [play_next, play_next_go]
    simp only [hl]
    rw [if_neg Bool.false_ne_true, hpre, hcur]
    simp only [Option.map_some', hcm, if_true]
    by_cases hemp : (fix_queue (some c.url) s.queue).isEmpty = true
    · simp only [hemp, if_true]
      constructor
      · simp
      · intro tr htr
        exact absurd htr (by simp)
    · simp only [Bool.not_eq_true] at hemp
      simp only [hemp]
      rw [if_neg Bool.false_ne_true]
      simp only [hpu]
      refine play_next_queue_avoid resolve connOk _ (some c.url) c.url hres
        (fun s' h1 h2 h3 =>
          play_next_go_avoid resolve connOk c.url hres _ s' h1 h2 h3)
        _ rfl rfl ?_ ?_
      · intro u rest hqe hcmf hne
        rw [hne, curMatches_some] at hcmf
        simp [hcne] at hcmf
      · intro u hu hne
        have hu' : u ∈ (fix_queue (some c.url) s.queue).drop 1 := hu
        rw [hne] at hu'
        refine fix_queue_tail_not_matches (some c.url) ?_ s.queue hu'
        simp [curMatches_some, hcne]

/-- Witness for C8 at a concrete state whose preload duplicates the current
song and whose queue holds one other entry. -/
theorem c8_preload_invariants_witness :
    (play_next cexResolve true
      { queue := ["b"], current := some ⟨"a", "A"⟩,
        preloaded := some ⟨"a", "A2"⟩, lock := false, hasVoice := true,
        isPlaying := true, isPaused := false }).preloaded = none ∧
    (handle_stop_request
      { queue := ["b"], current := some ⟨"a", "A"⟩,
        preloaded := some ⟨"a", "A2"⟩, lock := false, hasVoice := true,
        isPlaying := true, isPaused := false }).preloaded = none ∧
    preload_next_song cexResolve
      { queue := ["b"], current := some ⟨"a", "A"⟩,
        preloaded := some ⟨"a", "A2"⟩, lock := false, hasVoice := true,
        isPlaying := true, isPaused := false } =
      { queue := ["b"], current := some ⟨"a", "A"⟩,
        preloaded := some ⟨"a", "A2"⟩, lock := false, hasVoice := true,
        isPlaying := true, isPaused := false } := by
  have h := c8_preload_invariants cexResolve true
    { queue := ["b"], current := some ⟨"a", "A"⟩,
      preloaded := some ⟨"a", "A2"⟩, lock := false, hasVoice := true,
      isPlaying := true, isPaused := false }
    ⟨"a", "A2"⟩ ⟨"a", "A"⟩ cexResolve_url
  exact ⟨(h.2.2 rfl rfl rfl rfl (by decide)).1, h.2.1 rfl (Or.inl rfl),
    h.1 rfl⟩

/-- C10 counterexample: `preload_next_song` invoked while the queue head
equals the currently playing song's URL but a preloaded track is already
cached returns at the early exit of bot.py:1857-1859 — the head is NOT
removed and the whole state, queue included, is unchanged, where the claim
demands the head be popped whenever the preloader runs in that situation. -/
theorem c10_preload_frame_counterexample :
    preload_next_song cexResolve
      { queue := ["a", "b"], current := some ⟨"a", "A"⟩,
        preloaded := some ⟨"p", "P"⟩, lock := false, hasVoice := true,
        isPlaying := true, isPaused := false } =
      { queue := ["a", "b"], current := some ⟨"a", "A"⟩,
        preloaded := some ⟨"p", "P"⟩, lock := false, hasVoice := true,
        isPlaying := true, isPaused := false } := rfl

/-- C10 as the code has it: provided no track is already preloaded (the
early return of bot.py:1857-1859 otherwise leaves everything untouched),
`preload_next_song` pops the queue head exactly when it equals the current
song's URL (bot.py:1876-1879), then attempts to preload the following entry
— caching it when it resolves to a track whose title differs from the
current song's; in every other situation the queue is left unchanged. -/
theorem c10_preload_frame_amended (resolve : String → Option Track)
    (s : GuildState) (hpre : s.preloaded = none) :
    (∀ c t, s.current = some c → s.queue = c.url :: t →
      (preload_next_song resolve s).queue = t) ∧
    (∀ c y t p, s.current = some c → s.queue = c.url :: y :: t →
      resolve y = some p → p.title ≠ c.title →
      (preload_next_song resolve s).preloaded = some p ∧
      (preload_next_song resolve s).queue = y :: t) ∧
    ((∀ c u t, s.current = some c → s.queue = u :: t → u ≠ c.url) →
      (preload_next_song resolve s).queue = s.queue) := by
  obtain ⟨q0, cur0, pre0, lk0, hv0, ip0, ips0⟩ := s
  have hpre0 : pre0 = none := hpre
  subst hpre0
  refine ⟨?_, ?_, ?_⟩
  · intro c t hc hqe
    have hc0 : cur0 = some c := hc
    subst hc0
    have hq0 : q0 = c.url :: t := hqe
    subst hq0
    rcases t with _ | ⟨y, t'⟩
    · simp [preload_next_song]
    · cases hr : resolve y with
      | none => simp [preload_next_song, hr]
      | some player =>
        by_cases hb : c.title = player.title
        · simp [preload_next_song, hr, hb]
        · simp [preload_next_song, hr, hb]
  · intro c y t p hc hqe hr hti
    have hc0 : cur0 = some c := hc
    subst hc0
    have hq0 : q0 = c.url :: y :: t := hqe
    subst hq0
    have hb : ¬(c.title = p.title) := fun hh => hti hh.symm
    simp [preload_next_song, hr, hb]
  · intro hno
    rcases q0 with _ | ⟨u, t⟩
    · simp [preload_next_song]
    · rcases cur0 with _ | ⟨c⟩
      · cases hr : resolve u with
        | none => simp [preload_next_song, hr]
        | some player => simp [preload_next_song, hr]
      · have hne : u ≠ c.url := hno c u t rfl rfl
        have hb : ¬(c.url = u) := fun hh => hne hh.symm
        cases hr : resolve u with
        | none => simp [preload_next_song, hr, hb]
        | some player =>
          by_cases hbt : c.title = player.title
          · simp [preload_next_song, hr, hb, hbt]
          · simp [preload_next_song, hr, hb, hbt]

/-- Witness for C10 at a concrete state: head equals the current URL, no
preload cached; the head is popped and the following entry is preloaded. -/
theorem c10_preload_frame_witness :
    (preload_next_song cexResolve
      { queue := ["a", "b"], current := some ⟨"a", "A"⟩, preloaded := none,
        lock := false, hasVoice := true, isPlaying := true,
        isPaused := false }).queue = ["b"] ∧
    (preload_next_song cexResolve
      { queue := ["a", "b"], current := some ⟨"a", "A"⟩, preloaded := none,
        lock := false, hasVoice := true, isPlaying := true,
        isPaused := false }).preloaded = some ⟨"b", "B"⟩ := by
  have h := c10_preload_frame_amended cexResolve
    { queue := ["a", "b"], current := some ⟨"a", "A"⟩, preloaded := none,
      lock := false, hasVoice := true, isPlaying := true, isPaused := false }
    rfl
  refine ⟨?_, ?_⟩
  · have h1 := h.1 ⟨"a", "A"⟩ ["b"] rfl rfl
    exact h1
  · have h2 := h.2.1 ⟨"a", "A"⟩ "b" [] ⟨"b", "B"⟩ rfl rfl rfl (by decide)
    exact h2.1

/-- C9: the effective voice-disconnect handler (bot.py:2306-2356) evaluated
at its intended situation — track playing, one entry queued, a preload
cached, the lock held, all stored under the keys live code actually writes
(string keys for `current_song` and `queues`, integer keys for
`preloaded_songs` and `playing_locks`).  The handler remembers the channel,
clears the preload and releases the guard as the claim says, but it checks
`current_song[guild_id]` and `guild_id in queues` under the INTEGER key
(bot.py:2320, 2336), which live code never writes: the current song
survives the disconnect undiscarded, and `reconnect_and_resume` — the only
caller of the bounded-backoff `ensure_voice_connection` — is never
scheduled, non-empty queue notwithstanding, contradicting the handler's own
comments (bot.py:2319 "Clean up resources", 2335 "Try to reconnect and
continue playback if there's a queue"). -/
theorem c9_disconnect_int_key_bug :
    on_voice_disconnect
      { currentStr := some ⟨"u", "T"⟩, currentInt := none,
        queueStr := some ["v"], queueInt := none,
        preloadedInt := some ⟨"w", "W"⟩, lockInt := true,
        lastChannelInt := none } 5 =
      ({ currentStr := some ⟨"u", "T"⟩, currentInt := none,
         queueStr := some ["v"], queueInt := none,
         preloadedInt := none, lockInt := false,
         lastChannelInt := some 5 }, false) := rfl
